import Mathlib

/-!
Verification development for the collab-tasks backend (Node/Express/Mongoose).

The definitions below are a shallow embedding of the repository's controllers
and Mongoose schema hooks:

* `src/controllers/taskController.js` — `createTask`, `getTasks`, `getTask`,
  `updateTask`, `completeTask`, `deleteTask`;
* `src/models/Task.js` — the task schema and its `pre('save')` hook;
* `src/controllers/teamController.js` — `createTeam`, `updateTeam`,
  `addMember`, `removeMember`;
* `src/models/Team.js` — the team schema and its `pre('save')` hook;
* `src/controllers/authController.js` — `login`.

Document ids (Mongo ObjectIds, compared in the source via `toString()`) are
modelled as `Nat`; timestamps (`Date.now()`) as `Nat`; optional document fields
as `Option`.  A controller handler is modelled as a function returning
`Except (Nat × String) α`: `.error (status, message)` mirrors
`res.status(status).json({success: false, message})`, `.ok` mirrors the success
response.  Handlers read the target document through an `Option` argument
standing for the result of `findById` (`none` = no such document).  External
collaborators (bcrypt comparison, the user collection lookup) are passed in as
explicit function/argument parameters.
-/

namespace CollabTasks

/-- Global user role (`User.role`, enum `['user', 'admin']`). -/
inductive GlobalRole
  | user
  | admin
deriving DecidableEq, Repr

/-- Task status (`Task.status`, enum `['open', 'in-progress', 'completed', 'cancelled']`). -/
inductive Status
  | open_
  | inProgress
  | completed
  | cancelled
deriving DecidableEq, Repr

/-- Task priority (`Task.priority`, enum `['low', 'medium', 'high', 'urgent']`). -/
inductive Priority
  | low
  | medium
  | high
  | urgent
deriving DecidableEq, Repr

/-- Per-team membership role (`Team.members[].role`, enum `['owner', 'admin', 'member']`). -/
inductive MemberRole
  | owner
  | admin
  | member
deriving DecidableEq, Repr

/-- The authenticated caller attached by the `protect` middleware:
`req.user.id` and `req.user.role`. -/
structure Caller where
  id : Nat
  role : GlobalRole
deriving DecidableEq, Repr

/-- A Task document, after `src/models/Task.js` (`taskSchema`). -/
structure Task where
  title : String
  description : Option String
  status : Status
  priority : Priority
  dueDate : Option Nat
  createdBy : Nat
  assignedTo : Option Nat
  team : Option Nat
  tags : List String
  attachments : List Nat
  comments : List Nat
  createdAt : Nat
  updatedAt : Nat
  completedAt : Option Nat
deriving DecidableEq, Repr

/-- The `taskSchema.pre('save')` hook (`src/models/Task.js`):
refreshes `updatedAt`, and sets `completedAt` only when the `status` path was
modified in this save, the new status is `completed`, and `completedAt` is not
already set (`!this.completedAt`).  `statusModified` mirrors
`this.isModified('status')` for the pending save. -/
def taskSaveHook (statusModified : Bool) (t : Task) (now : Nat) : Task :=
  let t' := { t with updatedAt := now }
  if statusModified ∧ t'.status = Status.completed ∧ t'.completedAt = none then
    { t' with completedAt := some now }
  else
    t'

/-- `completeTask` (`src/controllers/taskController.js`): 404 when the task is
missing; 403 unless the caller is the assignee, the creator, or a global admin;
otherwise assigns `status = 'completed'` and `completedAt = Date.now()` on the
document and saves it (running the `pre('save')` hook).  Mongoose marks the
`status` path modified only when the assigned value differs from the stored
one, which `statusModified` reproduces. -/
def completeTask (task? : Option Task) (caller : Caller) (now : Nat) :
    Except (Nat × String) Task :=
  match task? with
  | none => .error (404, "Task not found")
  | some task =>
    if task.assignedTo ≠ some caller.id ∧ task.createdBy ≠ caller.id ∧
        caller.role ≠ GlobalRole.admin then
      .error (403, "Not authorized to complete this task")
    else
      let statusModified := task.status ≠ Status.completed
      let task' := { task with status := Status.completed, completedAt := some now }
      .ok (taskSaveHook statusModified task' now)

/-- The fields of a `PUT /api/tasks/:id` request body, each optionally present.
`updateTask` forwards `req.body` verbatim to `findByIdAndUpdate`, which `$set`s
every key present in the body; absent keys are untouched. -/
structure TaskUpdateBody where
  title : Option String := none
  description : Option String := none
  status : Option Status := none
  priority : Option Priority := none
  dueDate : Option Nat := none
  createdBy : Option Nat := none
  assignedTo : Option Nat := none
  team : Option Nat := none
  tags : Option (List String) := none
  completedAt : Option Nat := none
deriving DecidableEq, Repr

/-- The effect of `findByIdAndUpdate(id, req.body)` on a task document: every
field present in the body replaces the stored field, every absent field is
kept.  `findByIdAndUpdate` does not run the `pre('save')` hook. -/
def applyUpdate (t : Task) (b : TaskUpdateBody) : Task :=
  { t with
    title := b.title.getD t.title
    description := (b.description.map some).getD t.description
    status := b.status.getD t.status
    priority := b.priority.getD t.priority
    dueDate := (b.dueDate.map some).getD t.dueDate
    createdBy := b.createdBy.getD t.createdBy
    assignedTo := (b.assignedTo.map some).getD t.assignedTo
    team := (b.team.map some).getD t.team
    tags := b.tags.getD t.tags
    completedAt := (b.completedAt.map some).getD t.completedAt }

/-- `updateTask` (`src/controllers/taskController.js`): 404 when the task is
missing; 403 unless the caller is the creator, the assignee, or a global
admin; otherwise applies the whole request body via `findByIdAndUpdate`. -/
def updateTask (task? : Option Task) (caller : Caller) (body : TaskUpdateBody) :
    Except (Nat × String) Task :=
  match task? with
  | none => .error (404, "Task not found")
  | some task =>
    if task.createdBy ≠ caller.id ∧ task.assignedTo ≠ some caller.id ∧
        caller.role ≠ GlobalRole.admin then
      .error (403, "Not authorized to update this task")
    else
      .ok (applyUpdate task body)

/-- `deleteTask` (`src/controllers/taskController.js`): 404 when the task is
missing; 403 unless the caller is the creator or a global admin (the assignee
is NOT allowed, unlike `updateTask`); otherwise deletes the document. -/
def deleteTask (task? : Option Task) (caller : Caller) :
    Except (Nat × String) Unit :=
  match task? with
  | none => .error (404, "Task not found")
  | some task =>
    if task.createdBy ≠ caller.id ∧ caller.role ≠ GlobalRole.admin then
      .error (403, "Not authorized to delete this task")
    else
      .ok ()

/-- `getTask` (`src/controllers/taskController.js`): looks the task up by id
(with its populated creator/assignee/team and nested comment/attachment data),
returns 404 when absent and the document otherwise.  The handler never reads
`req.user` beyond authentication, so the caller argument is unused — exactly
as in the source. -/
def getTask (task? : Option Task) (_caller : Caller) :
    Except (Nat × String) Task :=
  match task? with
  | none => .error (404, "Task not found")
  | some task => .ok task

/-- The query string of `GET /api/tasks`, after `parseInt` on `page`/`limit`.
The defaults (`page = 1`, `limit = 10`, `sortBy = 'createdAt'`,
`order = 'desc'`) are the destructuring defaults in `getTasks`, applied when
the parameter is absent; a supplied `page=0` or `limit=0` reaches the handler
as the integer it parses to. -/
structure TaskListQuery where
  status : Option Status := none
  priority : Option Priority := none
  assignedTo : Option Nat := none
  createdBy : Option Nat := none
  team : Option Nat := none
  search : Option String := none
  sortBy : String := "createdAt"
  order : String := "desc"
  page : Int := 1
  limit : Int := 10
deriving DecidableEq, Repr

/-- The `$text` search the handler delegates to MongoDB via
`query.$text = { $search: search }`.  Its semantics live in the storage
engine, outside this repository; the spec fixes the contract as token
containment over title and description, case-insensitive, OR across the two
fields, which this definition follows.  (No claim in this development depends
on the internals of this predicate.) -/
def textMatches (search : String) (t : Task) : Bool :=
  let fieldWords :=
    (t.title.toLower.splitOn " ") ++
      (((t.description.getD "").toLower).splitOn " ")
  (search.toLower.splitOn " ").any fun tok =>
    tok ≠ "" ∧ tok ∈ fieldWords

/-- The conjunctive filter `getTasks` builds: each of
status/priority/assignedTo/createdBy/team is added to the Mongo query object
only when supplied (JS truthiness: an empty search string adds nothing). -/
def taskMatches (q : TaskListQuery) (t : Task) : Bool :=
  (match q.status with | none => true | some s => decide (t.status = s)) &&
  (match q.priority with | none => true | some p => decide (t.priority = p)) &&
  (match q.assignedTo with | none => true | some a => decide (t.assignedTo = some a)) &&
  (match q.createdBy with | none => true | some c => decide (t.createdBy = c)) &&
  (match q.team with | none => true | some tm => decide (t.team = some tm)) &&
  (match q.search with
   | none => true
   | some s => if s = "" then true else textMatches s t)

/-- The string stored for a status value in MongoDB. -/
def statusName : Status → String
  | Status.open_ => "open"
  | Status.inProgress => "in-progress"
  | Status.completed => "completed"
  | Status.cancelled => "cancelled"

/-- The string stored for a priority value in MongoDB. -/
def priorityName : Priority → String
  | Priority.low => "low"
  | Priority.medium => "medium"
  | Priority.high => "high"
  | Priority.urgent => "urgent"

/-- Ascending comparison on the field named by `sortBy`.  The schema's
sortable scalar fields are covered; status/priority are stored as strings in
MongoDB, so sorting on them compares their string forms; absent optional
values (BSON null) sort before present ones, as in MongoDB.  An unrecognized
field name leaves every pair tied, so the (stable) sort keeps the stored
order.  (No claim in this development depends on the comparator.) -/
def fieldLe (sortBy : String) (a b : Task) : Bool :=
  if sortBy = "title" then a.title ≤ b.title
  else if sortBy = "createdAt" then a.createdAt ≤ b.createdAt
  else if sortBy = "updatedAt" then a.updatedAt ≤ b.updatedAt
  else if sortBy = "dueDate" then
    match a.dueDate, b.dueDate with
    | none, _ => true
    | some _, none => false
    | some x, some y => x ≤ y
  else if sortBy = "completedAt" then
    match a.completedAt, b.completedAt with
    | none, _ => true
    | some _, none => false
    | some x, some y => x ≤ y
  else if sortBy = "status" then statusName a.status ≤ statusName b.status
  else if sortBy = "priority" then priorityName a.priority ≤ priorityName b.priority
  else true

/-- Insert one element into a list already sorted by `le` (stable). -/
def insertLe (le : Task → Task → Bool) (x : Task) : List Task → List Task
  | [] => [x]
  | y :: ys => if le x y then x :: y :: ys else y :: insertLe le x ys

/-- Insertion sort by `le` (stable), modelling the engine-side
`.sort({ [sortBy]: sortOrder })`. -/
def sortByLe (le : Task → Task → Bool) : List Task → List Task
  | [] => []
  | x :: xs => insertLe le x (sortByLe le xs)

/-- The sort `getTasks` requests: descending exactly when `order === 'desc'`,
ascending otherwise. -/
def sortTasks (sortBy order : String) (l : List Task) : List Task :=
  if order = "desc" then sortByLe (fun a b => fieldLe sortBy b a) l
  else sortByLe (fieldLe sortBy) l

/-- The skip the handler computes and hands to the storage engine:
`(parseInt(page) - 1) * parseInt(limit)` — note: no clamping of `page` or
`limit` anywhere. -/
def taskSkip (page limit : Int) : Int :=
  (page - 1) * limit

/-- The success payload of `GET /api/tasks`. -/
structure TaskListResponse where
  count : Nat
  total : Nat
  page : Int
  pages : Nat
  data : List Task
deriving DecidableEq, Repr

/-- `getTasks` (`src/controllers/taskController.js`): builds the conjunctive
filter, sorts, applies `skip((page-1)*limit)` and `limit(limit)`, counts the
matching documents, and responds with
`{count, total, page, pages: Math.ceil(total/limit), data}`.

The storage engine is modelled on its contractual domain only: for a
non-negative skip and a positive limit, `find.skip.limit` returns the sorted
matches with `skip` dropped and at most `limit` taken, and
`Math.ceil(total/limit)` is the Nat ceiling division.  Outside that domain
(negative skip — MongoDB rejects it — or `limit < 1`, where `limit(0)` means
"no limit" and `Math.ceil(total/0)` is `Infinity`) the engine/JS behavior is
not part of this repository and the result is modelled as `none`; in no case
is a below-1 `page` or `limit` coerced. -/
def getTasks (db : List Task) (q : TaskListQuery) : Option TaskListResponse :=
  let filtered := db.filter (taskMatches q)
  let sorted := sortTasks q.sortBy q.order filtered
  let skip := taskSkip q.page q.limit
  if skip < 0 ∨ q.limit < 1 then
    none
  else
    let items := (sorted.drop skip.toNat).take q.limit.toNat
    some
      { count := items.length
        total := filtered.length
        page := q.page
        pages := (filtered.length + q.limit.toNat - 1) / q.limit.toNat
        data := items }

/-- One entry of `Team.members` (`src/models/Team.js`): `{user, role, joinedAt}`. -/
structure Member where
  user : Nat
  role : MemberRole
  joinedAt : Nat
deriving DecidableEq, Repr

/-- A Team document, after `src/models/Team.js` (`teamSchema`). -/
structure Team where
  name : String
  description : Option String
  owner : Nat
  members : List Member
  createdAt : Nat
deriving DecidableEq, Repr

/-- The `teamSchema.pre('save')` hook (`src/models/Team.js`): on the first
save of a new document, if no membership record carries the owner's id, push
`{user: owner, role: 'owner', joinedAt: new Date()}`. -/
def teamSaveHook (isNew : Bool) (t : Team) (now : Nat) : Team :=
  if isNew then
    if ∃ m ∈ t.members, m.user = t.owner then t
    else { t with members := t.members ++ [⟨t.owner, MemberRole.owner, now⟩] }
  else t

/-- `createTeam` (`src/controllers/teamController.js`): `Team.create` with
`{name, description, owner: req.user.id}` (members start empty) runs the
`pre('save')` hook with `isNew`, which inserts the owner membership. -/
def createTeam (name : String) (description : Option String) (ownerId : Nat)
    (now : Nat) : Team :=
  teamSaveHook true
    { name := name, description := description, owner := ownerId,
      members := [], createdAt := now } now

/-- The repeated `team.members.some(member => member.user === caller &&
(member.role === 'owner' || member.role === 'admin'))` test of
`updateTeam`/`addMember`/`removeMember`. -/
def memberIsOwnerOrAdmin (team : Team) (uid : Nat) : Prop :=
  ∃ m ∈ team.members, m.user = uid ∧
    (m.role = MemberRole.owner ∨ m.role = MemberRole.admin)

instance (team : Team) (uid : Nat) : Decidable (memberIsOwnerOrAdmin team uid) :=
  List.decidableBEx _ team.members

/-- `updateTeam` (`src/controllers/teamController.js`): 404 when missing; 403
unless the caller holds an owner/admin membership role or is a global admin;
otherwise `findByIdAndUpdate` with exactly `{name, description}` (an absent
body field is `undefined`, which Mongoose strips from the update, keeping the
stored value).  `owner` and `members` are never part of the update. -/
def updateTeam (team? : Option Team) (caller : Caller)
    (name? : Option String) (description? : Option String) :
    Except (Nat × String) Team :=
  match team? with
  | none => .error (404, "Team not found")
  | some team =>
    if ¬ memberIsOwnerOrAdmin team caller.id ∧ caller.role ≠ GlobalRole.admin then
      .error (403, "Not authorized to update this team")
    else
      .ok { team with
              name := name?.getD team.name
              description := (description?.map some).getD team.description }

/-- `addMember` (`src/controllers/teamController.js`): 404 when the team is
missing; 403 unless the caller holds an owner/admin membership role or is a
global admin; 404 when the target user does not exist (`userExists` stands
for the `User.findById(userId)` lookup); 400 when the target already appears
in the membership list; otherwise pushes `{user: userId, role, joinedAt}`
(with `role = req.body.role`, defaulted to `'member'` by destructuring) and
saves (the hook is a no-op on an existing document). -/
def addMember (team? : Option Team) (caller : Caller) (userExists : Bool)
    (userId : Nat) (role? : Option MemberRole) (now : Nat) :
    Except (Nat × String) Team :=
  match team? with
  | none => .error (404, "Team not found")
  | some team =>
    if ¬ memberIsOwnerOrAdmin team caller.id ∧ caller.role ≠ GlobalRole.admin then
      .error (403, "Not authorized to add members to this team")
    else if ¬ userExists then
      .error (404, "User not found")
    else if ∃ m ∈ team.members, m.user = userId then
      .error (400, "User is already a member of this team")
    else
      .ok (teamSaveHook false
        { team with
            members := team.members ++ [⟨userId, role?.getD MemberRole.member, now⟩] }
        now)

/-- `removeMember` (`src/controllers/teamController.js`): 404 when the team is
missing; 403 unless the caller holds an owner/admin membership role or is a
global admin; 400 (`Cannot remove team owner`) when the target is the team's
owner — note this check runs AFTER the 403 check; otherwise filters the
target's records out of `members` and saves. -/
def removeMember (team? : Option Team) (caller : Caller) (targetId : Nat)
    (now : Nat) : Except (Nat × String) Team :=
  match team? with
  | none => .error (404, "Team not found")
  | some team =>
    if ¬ memberIsOwnerOrAdmin team caller.id ∧ caller.role ≠ GlobalRole.admin then
      .error (403, "Not authorized to remove members from this team")
    else if team.owner = targetId then
      .error (400, "Cannot remove team owner")
    else
      .ok (teamSaveHook false
        { team with members := team.members.filter fun m => m.user ≠ targetId }
        now)

/-- The stored team document after a `removeMember` request: an error response
is returned before any write, so the document is unchanged on every error
path; on success it is the saved result. -/
def removeMemberState (team : Team) (caller : Caller) (targetId : Nat)
    (now : Nat) : Team :=
  match removeMember (some team) caller targetId now with
  | .ok t' => t'
  | .error _ => team

/-- Team states reachable through this repository's operations: created by
`createTeam`, then transformed by successful `addMember`, `removeMember` and
`updateTeam` calls (an error response performs no write, so it produces no
new state). -/
inductive TeamReach : Team → Prop
  | created (name : String) (description : Option String) (ownerId now : Nat) :
      TeamReach (createTeam name description ownerId now)
  | addedMember {t t' : Team} (caller : Caller) (userExists : Bool)
      (userId : Nat) (role? : Option MemberRole) (now : Nat) :
      TeamReach t → addMember (some t) caller userExists userId role? now = .ok t' →
      TeamReach t'
  | removedMember {t t' : Team} (caller : Caller) (targetId now : Nat) :
      TeamReach t → removeMember (some t) caller targetId now = .ok t' →
      TeamReach t'
  | updatedTeam {t t' : Team} (caller : Caller)
      (name? description? : Option String) :
      TeamReach t → updateTeam (some t) caller name? description? = .ok t' →
      TeamReach t'

/-- The §3 invariant: the team's owner appears in the membership set with
membership role `owner`. -/
def ownerMembership (t : Team) : Prop :=
  ∃ m ∈ t.members, m.user = t.owner ∧ m.role = MemberRole.owner

instance (t : Team) : Decidable (ownerMembership t) :=
  List.decidableBEx _ t.members

/-- A User document as `login` reads it (`src/models/User.js`): the stored
`password` is the bcrypt hash. -/
structure UserRec where
  id : Nat
  name : String
  email : String
  password : String
  role : GlobalRole
deriving DecidableEq, Repr

/-- JS falsiness of the destructured `email`/`password` body fields: absent
(`undefined`) or the empty string. -/
def isBlank : Option String → Bool
  | none => true
  | some s => s = ""

/-- The response of `POST /api/auth/login`: on success the envelope carries
the public profile fields and a token signed over the user id; on failure
only `{success: false, message}` with the HTTP status. -/
inductive LoginResponse
  | ok (userId : Nat) (name : String) (email : String) (role : GlobalRole)
  | failure (status : Nat) (message : String)
deriving DecidableEq, Repr

/-- `login` (`src/controllers/authController.js`): 400 when email or password
is missing/empty; then `User.findOne({email})`; 401 `Invalid credentials` when
no user matches; then `user.comparePassword(password)` (bcrypt, passed in as
`compare candidate hash`); 401 `Invalid credentials` on mismatch; otherwise a
200 with the profile and a fresh token. -/
def login (db : List UserRec) (compare : String → String → Bool)
    (email password : Option String) : LoginResponse :=
  if isBlank email ∨ isBlank password then
    .failure 400 "Please provide email and password"
  else
    match db.find? (fun u => u.email = email.getD "") with
    | none => .failure 401 "Invalid credentials"
    | some user =>
      if compare (password.getD "") user.password then
        .ok user.id user.name user.email user.role
      else
        .failure 401 "Invalid credentials"

/-! Concrete documents used to evaluate the definitions. -/

/-- A fresh open task created by user 1 and assigned to user 2. -/
def exTaskOpen : Task :=
  { title := "Ship release", description := none, status := Status.open_,
    priority := Priority.medium, dueDate := none, createdBy := 1,
    assignedTo := some 2, team := none, tags := [], attachments := [],
    comments := [], createdAt := 0, updatedAt := 0, completedAt := none }

/-- `exTaskOpen` as stored after `completeTask` at time 100. -/
def exTaskDone100 : Task :=
  { exTaskOpen with
    status := Status.completed
    updatedAt := 100
    completedAt := some 100 }

/-- `exTaskDone100` as stored after a second `completeTask` at time 200. -/
def exTaskDone200 : Task :=
  { exTaskOpen with
    status := Status.completed
    updatedAt := 200
    completedAt := some 200 }

/-- C1 — the claim says a second `completeTask` call leaves `completedAt` at
its first value.  Evaluating the code at a concrete failing input: user 1
(the creator, an authorized caller) completes the open task at time 100
(`completedAt` becomes 100) and calls `completeTask` again at time 200; the
second call is accepted and stores `completedAt = 200`.  The controller
assigns `task.completedAt = Date.now()` unconditionally, so the
`pre('save')` guard (`!this.completedAt`) that implements the set-once intent
never fires, and the second call changes `completedAt`. -/
theorem completeTask_second_call_overwrites_completedAt :
    completeTask (some exTaskOpen) ⟨1, GlobalRole.user⟩ 100 = .ok exTaskDone100 ∧
    exTaskDone100.completedAt = some 100 ∧
    completeTask (some exTaskDone100) ⟨1, GlobalRole.user⟩ 200 = .ok exTaskDone200 ∧
    exTaskDone200.completedAt = some 200 ∧
    exTaskDone200.completedAt ≠ exTaskDone100.completedAt :=
  ⟨rfl, rfl, rfl, rfl, by decide⟩

/-- The task of the C2 counterexample: created by user 1. -/
def exTask2 : Task := { exTaskOpen with createdBy := 1, assignedTo := none }

/-- A `PUT /api/tasks/:id` body that tries to change `createdBy` to user 2. -/
def exBody2 : TaskUpdateBody := { createdBy := some 2 }

/-- C2 counterexample — the claim says `updateTask` disallows changing
`createdBy`.  Concretely: the creator (user 1, an authorized caller) sends a
body containing `createdBy: 2`; the update succeeds and the stored task's
`createdBy` is 2, no longer 1.  `updateTask` forwards the whole body to
`findByIdAndUpdate` and nothing in the schema marks `createdBy` immutable. -/
theorem updateTask_changes_createdBy_cex :
    updateTask (some exTask2) ⟨1, GlobalRole.user⟩ exBody2 =
      .ok (applyUpdate exTask2 exBody2) ∧
    (applyUpdate exTask2 exBody2).createdBy = 2 ∧
    exTask2.createdBy = 1 :=
  ⟨rfl, rfl, rfl⟩

/-- C2 (amended) — `updateTask` applies every field present in the request
body, `createdBy` included: after a successful update the stored `createdBy`
equals the body's `createdBy` when supplied, and the old value otherwise.
`createdBy` is not protected. -/
theorem updateTask_sets_createdBy_from_body (t : Task) (c : Caller)
    (b : TaskUpdateBody) (t' : Task)
    (h : updateTask (some t) c b = .ok t') :
    t'.createdBy = b.createdBy.getD t.createdBy := by
  simp only [updateTask] at h
  split_ifs at h
  simp only [Except.ok.injEq] at h
  subst h
  rfl

/-- C2 (amended) witness — the creator updates a task with a body carrying
`createdBy: 9`; the theorem yields that the stored `createdBy` is 9. -/
theorem updateTask_sets_createdBy_from_body_witness :
    (applyUpdate exTask2 { createdBy := some 9 }).createdBy =
      (some 9 : Option Nat).getD exTask2.createdBy :=
  updateTask_sets_createdBy_from_body exTask2 ⟨1, GlobalRole.user⟩
    { createdBy := some 9 } (applyUpdate exTask2 { createdBy := some 9 })
    rfl

/-- C6 — `deleteTask` answers 403 exactly when the caller is neither the
task's creator nor a global admin (so an assignee who is not the creator
cannot delete), while `updateTask` answers 403 exactly when the caller is
none of creator, assignee, or global admin; a caller who is none of the three
therefore gets 403 from both. -/
theorem deleteTask_updateTask_auth_rules (t : Task) (c : Caller)
    (b : TaskUpdateBody) :
    (deleteTask (some t) c = .error (403, "Not authorized to delete this task")
      ↔ t.createdBy ≠ c.id ∧ c.role ≠ GlobalRole.admin) ∧
    (updateTask (some t) c b = .error (403, "Not authorized to update this task")
      ↔ t.createdBy ≠ c.id ∧ t.assignedTo ≠ some c.id ∧
          c.role ≠ GlobalRole.admin) := by
  constructor
  · simp only [deleteTask]
    split_ifs with h
    · simp [h]
    · simp [h]
  · simp only [updateTask]
    split_ifs with h
    · simp [h]
    · simp [h]

/-- C6 witness — user 3 is neither creator (1) nor assignee (2) nor admin of
`exTaskOpen`: both the delete rule and the update rule instantiate to it. -/
theorem deleteTask_updateTask_auth_rules_witness :
    (deleteTask (some exTaskOpen) ⟨3, GlobalRole.user⟩ =
        .error (403, "Not authorized to delete this task")
      ↔ exTaskOpen.createdBy ≠ 3 ∧ GlobalRole.user ≠ GlobalRole.admin) ∧
    (updateTask (some exTaskOpen) ⟨3, GlobalRole.user⟩ {} =
        .error (403, "Not authorized to update this task")
      ↔ exTaskOpen.createdBy ≠ 3 ∧ exTaskOpen.assignedTo ≠ some 3 ∧
          GlobalRole.user ≠ GlobalRole.admin) :=
  deleteTask_updateTask_auth_rules exTaskOpen ⟨3, GlobalRole.user⟩ {}

/-- C10 — `getTask` checks nothing beyond authentication: it returns the
task to any authenticated caller, its result does not depend on the caller at
all, it answers 404 exactly when the id matches no task, and it never answers
403. -/
theorem getTask_any_caller (o : Option Task) (t : Task) (c c' : Caller)
    (m : String) :
    getTask (some t) c = .ok t ∧
    getTask none c = .error (404, "Task not found") ∧
    getTask o c = getTask o c' ∧
    getTask o c ≠ .error (403, m) := by
  refine ⟨rfl, rfl, rfl, ?_⟩
  cases o <;> simp [getTask]

/-- C10 witness — instantiated at a concrete task, two distinct callers and a
concrete message. -/
theorem getTask_any_caller_witness :
    getTask (some exTaskOpen) ⟨3, GlobalRole.user⟩ = .ok exTaskOpen ∧
    getTask none ⟨3, GlobalRole.user⟩ = .error (404, "Task not found") ∧
    getTask (some exTaskOpen) ⟨3, GlobalRole.user⟩ =
      getTask (some exTaskOpen) ⟨4, GlobalRole.admin⟩ ∧
    getTask (some exTaskOpen) ⟨3, GlobalRole.user⟩ ≠
      .error (403, "Not authorized") :=
  getTask_any_caller (some exTaskOpen) exTaskOpen ⟨3, GlobalRole.user⟩
    ⟨4, GlobalRole.admin⟩ "Not authorized"

/-- A team owned by user 1 with one additional plain member, user 2. -/
def exTeam : Team :=
  { name := "Core", description := none, owner := 1,
    members := [⟨1, MemberRole.owner, 0⟩, ⟨2, MemberRole.member, 0⟩],
    createdAt := 0 }

/-- C5 counterexample — the claim says removing the team owner fails with
InvalidOperation (400) regardless of the caller's role, including an ordinary
member.  Concretely: plain member 2 (membership role `member`, global role
`user`) asks to remove owner 1; the authorization check runs first, so the
response is 403 `Not authorized to remove members from this team`, not the
400 `Cannot remove team owner`. -/
theorem removeMember_owner_by_plain_member_is_403 :
    removeMember (some exTeam) ⟨2, GlobalRole.user⟩ 1 5 =
      .error (403, "Not authorized to remove members from this team") ∧
    removeMember (some exTeam) ⟨2, GlobalRole.user⟩ 1 5 ≠
      .error (400, "Cannot remove team owner") := by
  refine ⟨rfl, ?_⟩
  intro hc
  rw [show removeMember (some exTeam) ⟨2, GlobalRole.user⟩ 1 5 =
      Except.error ((403 : Nat), "Not authorized to remove members from this team")
    from rfl] at hc
  injection hc with h
  injection h with h1 h2
  exact absurd h1 (by decide)

/-- C5 (amended) — when the target of `removeMember` is the team's owner, the
membership set is left unchanged whatever the caller's role; a caller that
passes the authorization check (owner/admin membership role or global admin)
gets the 400 `Cannot remove team owner` error, while any other caller is
stopped earlier by the 403 authorization error. -/
theorem removeMember_owner_target_protected (team : Team) (caller : Caller)
    (targetId now : Nat) (h : team.owner = targetId) :
    removeMemberState team caller targetId now = team ∧
    ((memberIsOwnerOrAdmin team caller.id ∨ caller.role = GlobalRole.admin) →
      removeMember (some team) caller targetId now =
        .error (400, "Cannot remove team owner")) ∧
    (¬(memberIsOwnerOrAdmin team caller.id ∨ caller.role = GlobalRole.admin) →
      removeMember (some team) caller targetId now =
        .error (403, "Not authorized to remove members from this team")) := by
  by_cases hauth : memberIsOwnerOrAdmin team caller.id ∨ caller.role = GlobalRole.admin
  · have hcond : ¬(¬ memberIsOwnerOrAdmin team caller.id ∧
        caller.role ≠ GlobalRole.admin) := by tauto
    refine ⟨?_, fun _ => ?_, fun hn => absurd hauth hn⟩
    · simp [removeMemberState, removeMember, hcond, h]
    · simp [removeMember, hcond, h]
  · have hcond : ¬ memberIsOwnerOrAdmin team caller.id ∧
        caller.role ≠ GlobalRole.admin := by tauto
    refine ⟨?_, fun ha => absurd ha hauth, fun _ => ?_⟩
    · simp [removeMemberState, removeMember, hcond]
    · simp [removeMember, hcond]

/-- C5 (amended) witness — the owner itself (an authorized caller) asks to
remove the owner: state unchanged and the 400 error. -/
theorem removeMember_owner_target_protected_witness :
    removeMemberState exTeam ⟨1, GlobalRole.user⟩ 1 5 = exTeam ∧
    ((memberIsOwnerOrAdmin exTeam 1 ∨ GlobalRole.user = GlobalRole.admin) →
      removeMember (some exTeam) ⟨1, GlobalRole.user⟩ 1 5 =
        .error (400, "Cannot remove team owner")) ∧
    (¬(memberIsOwnerOrAdmin exTeam 1 ∨ GlobalRole.user = GlobalRole.admin) →
      removeMember (some exTeam) ⟨1, GlobalRole.user⟩ 1 5 =
        .error (403, "Not authorized to remove members from this team")) :=
  removeMember_owner_target_protected exTeam ⟨1, GlobalRole.user⟩ 1 5 rfl

/-- C9 — a successful `addMember` appends exactly one membership record whose
role is the role supplied in the request body (defaulted to `member` when
absent) and whose user is the requested target; the team's `owner` field is
untouched.  Nothing restricts the supplied role, so `role: 'owner'` creates
an `owner`-role membership for a user who is not the team's owner (see the
witness). -/
theorem addMember_appends_requested_role (team : Team) (caller : Caller)
    (userExists : Bool) (userId : Nat) (role? : Option MemberRole) (now : Nat)
    (t' : Team)
    (h : addMember (some team) caller userExists userId role? now = .ok t') :
    t'.members = team.members ++ [⟨userId, role?.getD MemberRole.member, now⟩] ∧
    t'.owner = team.owner := by
  simp only [addMember] at h
  split_ifs at h
  simp only [Except.ok.injEq] at h
  subst h
  exact ⟨rfl, rfl⟩

/-- C9 witness — the team owner (user 1) adds user 2 with `role: 'owner'`:
the call succeeds and appends an `owner`-role membership record for user 2,
while the team's `owner` field stays 1 — so at-most-one-owner-role-membership
is not enforced. -/
theorem addMember_appends_requested_role_witness :
    (teamSaveHook false
        { exTeam with members := exTeam.members ++ [⟨3, MemberRole.owner, 7⟩] }
        7).members =
      exTeam.members ++ [⟨3, (some MemberRole.owner).getD MemberRole.member, 7⟩] ∧
    (teamSaveHook false
        { exTeam with members := exTeam.members ++ [⟨3, MemberRole.owner, 7⟩] }
        7).owner = exTeam.owner :=
  addMember_appends_requested_role exTeam ⟨1, GlobalRole.user⟩ true 3
    (some MemberRole.owner) 7 _ rfl

/-- C4 — in every reachable team state the owner appears in the membership
set with membership role `owner`: `createTeam`'s save hook inserts that
record, `addMember` only appends (and refuses a duplicate of an existing
member, the owner included), `removeMember` refuses the owner as target and
filtering other users out keeps the owner's record, and `updateTeam` only
rewrites name/description.  None of the operations changes the `owner`
field. -/
theorem teamReach_owner_membership (t : Team) (h : TeamReach t) :
    ownerMembership t := by
  induction h with
  | created name description ownerId now =>
    simp [createTeam, teamSaveHook, ownerMembership]
  | addedMember caller userExists userId role? now hreach hadd ih =>
    rename_i t₀ t'
    simp only [addMember] at hadd
    split_ifs at hadd
    simp only [Except.ok.injEq] at hadd
    subst hadd
    obtain ⟨m, hm, hmo, hmr⟩ := ih
    exact ⟨m, List.mem_append_left _ hm, hmo, hmr⟩
  | removedMember caller targetId now hreach hrem ih =>
    rename_i t₀ t'
    simp only [removeMember] at hrem
    split_ifs at hrem with h1 h2
    simp only [Except.ok.injEq] at hrem
    subst hrem
    obtain ⟨m, hm, hmo, hmr⟩ := ih
    refine ⟨m, ?_, hmo, hmr⟩
    simp only [teamSaveHook, if_neg (by simp : ¬ False = True)]
    exact List.mem_filter.mpr ⟨hm, by simp [hmo]; intro hc; exact h2 hc⟩
  | updatedTeam caller name? description? hreach hupd ih =>
    rename_i t₀ t'
    simp only [updateTeam] at hupd
    split_ifs at hupd
    simp only [Except.ok.injEq] at hupd
    subst hupd
    exact ih

/-- C4 witness — the state just after `createTeam`: user 7 creates a team and
is present in its membership set with role `owner`. -/
theorem teamReach_owner_membership_witness :
    ownerMembership (createTeam "Dev" none 7 0) :=
  teamReach_owner_membership (createTeam "Dev" none 7 0)
    (TeamReach.created "Dev" none 7 0)

/-- C7 — failed logins are observationally indistinguishable: whether the
email matches no user, or the email matches a user whose password comparison
fails, the response is the same `401` with the same uniform
`Invalid credentials` message, so a client cannot tell the two causes apart
(no user enumeration).  The first run has an unknown email, the second a
known email with a mismatching password; both runs produce the identical
response value. -/
theorem login_uniform_invalid_credentials
    (db₁ db₂ : List UserRec) (cmp₁ cmp₂ : String → String → Bool)
    (e₁ p₁ e₂ p₂ : Option String)
    (he₁ : isBlank e₁ = false) (hp₁ : isBlank p₁ = false)
    (he₂ : isBlank e₂ = false) (hp₂ : isBlank p₂ = false)
    (hno : db₁.find? (fun u => u.email = e₁.getD "") = none)
    (hbad : ∀ u, db₂.find? (fun u => u.email = e₂.getD "") = some u →
      cmp₂ (p₂.getD "") u.password = false) :
    login db₁ cmp₁ e₁ p₁ = .failure 401 "Invalid credentials" ∧
    login db₂ cmp₂ e₂ p₂ = .failure 401 "Invalid credentials" ∧
    login db₁ cmp₁ e₁ p₁ = login db₂ cmp₂ e₂ p₂ := by
  have l₁ : login db₁ cmp₁ e₁ p₁ = .failure 401 "Invalid credentials" := by
    simp only [login, he₁, hp₁, hno]
    simp
  have l₂ : login db₂ cmp₂ e₂ p₂ = .failure 401 "Invalid credentials" := by
    simp only [login, he₂, hp₂]
    simp only [Bool.false_eq_true, or_self, if_false]
    cases hfind : db₂.find? (fun u => u.email = e₂.getD "") with
    | none => rfl
    | some u => simp [hbad u hfind]
  exact ⟨l₁, l₂, l₁.trans l₂.symm⟩

/-- A stored user for the C7 witness. -/
def exUser : UserRec :=
  { id := 4, name := "Dana", email := "dana@example.com",
    password := "storedhash", role := GlobalRole.user }

/-- C7 witness — run one: empty user collection (unknown email); run two: the
collection holds Dana but the bcrypt comparison rejects the password.  Both
runs answer 401 `Invalid credentials` and are equal. -/
theorem login_uniform_invalid_credentials_witness :
    login [] (fun _ _ => false) (some "ghost@example.com") (some "pw") =
      .failure 401 "Invalid credentials" ∧
    login [exUser] (fun _ _ => false) (some "dana@example.com") (some "wrong") =
      .failure 401 "Invalid credentials" ∧
    login [] (fun _ _ => false) (some "ghost@example.com") (some "pw") =
      login [exUser] (fun _ _ => false) (some "dana@example.com") (some "wrong") :=
  login_uniform_invalid_credentials [] [exUser] (fun _ _ => false)
    (fun _ _ => false) (some "ghost@example.com") (some "pw")
    (some "dana@example.com") (some "wrong") rfl rfl rfl rfl rfl
    (fun _ _ => rfl)

/-- The list query of the C3 counterexample: `page=0&limit=10` as parsed. -/
def exQ3 : TaskListQuery := { page := 0, limit := 10 }

/-- C3 counterexample — the claim says a below-1 page or limit is coerced to
1 and the query succeeds.  Concretely, for `page=0&limit=10` the handler
computes skip `(0 - 1) * 10 = -10` and hands it to the storage engine as is
(coercion of the page to 1 would give skip 0); no success response with that
negative skip exists in the modelled engine contract (MongoDB rejects a
negative skip), so the claimed always-success behavior has no basis in the
code. -/
theorem getTasks_page_zero_cex :
    taskSkip exQ3.page exQ3.limit = -10 ∧
    taskSkip 1 exQ3.limit = 0 ∧
    getTasks [] exQ3 = none :=
  ⟨rfl, rfl, rfl⟩

/-- C3 (amended) — `getTasks` performs no coercion of `page` or `limit`: the
skip sent to the storage engine is `(page - 1) * limit` computed from the raw
values, which is negative for every `page < 1` with a positive `limit` (and
in particular differs from the skip a page coerced to 1 would give); success
is then up to the storage engine's treatment of a negative skip — outside
this repository — rather than guaranteed, which the model records as the
absence of a success response. -/
theorem getTasks_no_page_coercion (db : List Task) (q : TaskListQuery)
    (hp : q.page < 1) (hl : 1 ≤ q.limit) :
    taskSkip q.page q.limit < 0 ∧
    taskSkip q.page q.limit ≠ taskSkip 1 q.limit ∧
    getTasks db q = none := by
  have hs : taskSkip q.page q.limit < 0 := by
    have h1 : q.page - 1 < 0 := by omega
    have h2 : (0 : Int) < q.limit := by omega
    exact mul_neg_of_neg_of_pos h1 h2
  refine ⟨hs, ?_, ?_⟩
  · have : taskSkip 1 q.limit = 0 := by
      simp [taskSkip]
    omega
  · simp only [getTasks]
    rw [if_pos (Or.inl hs)]

/-- C3 (amended) witness — instantiated at `page=0&limit=10` over an empty
task collection. -/
theorem getTasks_no_page_coercion_witness :
    taskSkip exQ3.page exQ3.limit < 0 ∧
    taskSkip exQ3.page exQ3.limit ≠ taskSkip 1 exQ3.limit ∧
    getTasks [] exQ3 = none :=
  getTasks_no_page_coercion [] exQ3 (by decide) (by decide)

/-- Helper: `(t + l - 1) / l` on naturals is the rational ceiling of `t / l`
when `l ≥ 1` — the Nat reading of `Math.ceil(total / limit)`. -/
theorem add_pred_div_eq_ceil (t l : Nat) (hl : 1 ≤ l) :
    (t + l - 1) / l = (⌈(t : ℚ) / (l : ℚ)⌉).toNat := by
  have hl0 : 0 < l := hl
  set z := (t + l - 1) / l with hz
  have hd := Nat.div_add_mod (t + l - 1) l
  have hm := Nat.mod_lt (t + l - 1) hl0
  set r := (t + l - 1) % l with hr
  have hzl : t ≤ z * l ∧ z * l < t + l := by
    rw [mul_comm]
    generalize hP : l * z = P at hd
    omega
  have hlq : (0 : ℚ) < (l : ℚ) := by exact_mod_cast hl0
  have hceil : ⌈(t : ℚ) / (l : ℚ)⌉ = (z : ℤ) := by
    rw [Int.ceil_eq_iff]
    constructor
    · rw [lt_div_iff₀ hlq]
      have hcast : (((z * l : Nat) : ℚ)) < (t : ℚ) + (l : ℚ) := by
        exact_mod_cast hzl.2
      push_cast at hcast ⊢
      nlinarith
    · rw [div_le_iff₀ hlq]
      have hcast : ((t : Nat) : ℚ) ≤ ((z * l : Nat) : ℚ) := by
        exact_mod_cast hzl.1
      push_cast at hcast ⊢
      nlinarith
  rw [hceil]
  exact (Int.toNat_natCast z).symm

/-- C8 — whenever `getTasks` answers a list query with `limit ≥ 1`, the page
of items it returns has length at most `limit`, `total` counts every task
matching the conjunctive filter (not just the current page), and `pages` is
exactly the ceiling of `total / limit`. -/
theorem getTasks_pagination (db : List Task) (q : TaskListQuery)
    (r : TaskListResponse) (hq : getTasks db q = some r) (hl : 1 ≤ q.limit) :
    r.data.length ≤ q.limit.toNat ∧
    r.total = (db.filter (taskMatches q)).length ∧
    r.pages = (⌈(r.total : ℚ) / (q.limit : ℚ)⌉).toNat := by
  simp only [getTasks] at hq
  split_ifs at hq with hguard
  simp only [Option.some.injEq] at hq
  subst hq
  refine ⟨?_, rfl, ?_⟩
  · exact List.length_take_le _ _
  · have hl1 : 1 ≤ q.limit.toNat := by omega
    have hcast : ((q.limit.toNat : Nat) : ℚ) = ((q.limit : Int) : ℚ) := by
      have := Int.toNat_of_nonneg (by omega : (0 : Int) ≤ q.limit)
      exact_mod_cast congrArg (fun n => ((n : Int) : ℚ)) this
    simpa [hcast] using
      add_pred_div_eq_ceil (db.filter (taskMatches q)).length q.limit.toNat hl1

/-- Three stored tasks with distinct creation times, for the C8 witness. -/
def exTaskA : Task := { exTaskOpen with title := "a", createdAt := 1 }

/-- Second stored task of the C8 witness. -/
def exTaskB : Task := { exTaskOpen with title := "b", createdAt := 2 }

/-- Third stored task of the C8 witness. -/
def exTaskC : Task := { exTaskOpen with title := "c", createdAt := 3 }

/-- The task collection of the C8 witness. -/
def exDb8 : List Task := [exTaskA, exTaskB, exTaskC]

/-- The list query of the C8 witness: first page, two items per page,
default sort (createdAt descending). -/
def exQ8 : TaskListQuery := { page := 1, limit := 2 }

/-- The response `getTasks` gives for the C8 witness query: newest two of the
three matching tasks, `total = 3`, `pages = 2`. -/
def exResp8 : TaskListResponse :=
  { count := 2, total := 3, page := 1, pages := 2, data := [exTaskC, exTaskB] }

/-- C8 witness — the pagination theorem instantiated at the concrete query:
two items (≤ limit), total 3 over the whole filter, and pages = ⌈3/2⌉ = 2. -/
theorem getTasks_pagination_witness :
    exResp8.data.length ≤ exQ8.limit.toNat ∧
    exResp8.total = (exDb8.filter (taskMatches exQ8)).length ∧
    exResp8.pages = (⌈(exResp8.total : ℚ) / (exQ8.limit : ℚ)⌉).toNat :=
  getTasks_pagination exDb8 exQ8 exResp8 rfl (by decide)

end CollabTasks
